import Mathlib

set_option maxRecDepth 100000
set_option maxHeartbeats 2000000

/-!
Verification development for the SiYuan task-query subsystem
(parser, optimizer, compiler/execution engine, cache) of this repository.

The TypeScript sources are embedded shallowly: pure functions become Lean
functions over List Char / String, JavaScript regular expressions are
replaced by equivalent explicit scanners, and the stateful query cache
becomes explicit state passing.  The external record-source collaborator
(the SiYuan HTTP API) is modelled from the spec where noted.
-/

namespace SiyuanTasks

/-! ## JavaScript string primitives -/

/-- ASCII whitespace, the fragment of the JavaScript regex class backslash-s
exercised by the query language (space, tab, newline, carriage return,
vertical tab, form feed). -/
def jsWS (c : Char) : Bool :=
  c = ' ' || c = '\t' || c = '\n' || c = '\r' || c = '\x0b' || c = '\x0c'

def dropLeadWS : List Char → List Char
  | [] => []
  | c :: cs => if jsWS c then dropLeadWS cs else c :: cs

/-- JavaScript String.prototype.trim restricted to ASCII whitespace. -/
def trimChars (l : List Char) : List Char :=
  ((dropLeadWS ((dropLeadWS l).reverse)).reverse)

def jsTrim (s : String) : String := ⟨trimChars s.data⟩

def lowerChars (l : List Char) : List Char := l.map Char.toLower

def lowerStr (s : String) : String := ⟨lowerChars s.data⟩

def upperStr (s : String) : String := ⟨s.data.map Char.toUpper⟩

/-- Prefix test on character lists. -/
def isPfxL : List Char → List Char → Bool
  | [], _ => true
  | _ :: _, [] => false
  | a :: as, b :: bs => a = b && isPfxL as bs

/-- Case-insensitive prefix test (both sides lowered characterwise). -/
def isPfxCI : List Char → List Char → Bool
  | [], _ => true
  | _ :: _, [] => false
  | a :: as, b :: bs => a.toLower = b.toLower && isPfxCI as bs

def stripPfxL (p : List Char) (l : List Char) : Option (List Char) :=
  if isPfxL p l then some (l.drop p.length) else none

def stripPfxCI (p : List Char) (l : List Char) : Option (List Char) :=
  if isPfxCI p l then some (l.drop p.length) else none

/-- Substring containment test. -/
def containsSubL (n : List Char) : List Char → Bool
  | [] => n.isEmpty
  | c :: cs => isPfxL n (c :: cs) || containsSubL n cs

/-- Index of the first occurrence of a substring. -/
def findSubIdx (n : List Char) : List Char → Option Nat
  | [] => if n.isEmpty then some 0 else none
  | c :: cs =>
    if isPfxL n (c :: cs) then some 0
    else (findSubIdx n cs).map (fun i => i + 1)

def myStartsWith (s pre : String) : Bool := isPfxL pre.data s.data

def myEndsWith (s suf : String) : Bool := isPfxL suf.data.reverse s.data.reverse

/-- JavaScript String.prototype.split with a single-character separator:
every separator occurrence produces a field, so leading, trailing and
adjacent separators produce empty fields. -/
def splitOnCharL (sep : Char) : List Char → List (List Char)
  | [] => [[]]
  | c :: cs =>
    if c = sep then [] :: splitOnCharL sep cs
    else
      match splitOnCharL sep cs with
      | [] => [[c]]
      | f :: rest => (c :: f) :: rest

/-- Length of the leading whitespace run. -/
def wsRunLen : List Char → Nat
  | [] => 0
  | c :: cs => if jsWS c then wsRunLen cs + 1 else 0

/-! Separator matchers replacing the JavaScript regex separators.  Each
matcher answers whether a separator match starts exactly at the head of the
given suffix and, if so, how many characters it consumes.  The operator
tokens never begin with whitespace, so the greedy whitespace runs of the
original regexes cannot backtrack into a different split: the maximal run
is the only candidate. -/

/-- Matcher for the separator regex of a single-word operator token, which
the source builds without the case-insensitive flag: optional whitespace,
the literal token, optional whitespace. -/
def sepSingleAt (op : List Char) (l : List Char) : Option Nat :=
  let r1 := wsRunLen l
  match stripPfxL op (l.drop r1) with
  | none => none
  | some l2 => some (r1 + op.length + wsRunLen l2)

/-- Matcher for the separator regex of a multi-word operator token or an
inline connective word, which the source builds with the case-insensitive
flag: mandatory whitespace, the token (case-insensitively), mandatory
whitespace. -/
def sepMultiAt (op : List Char) (l : List Char) : Option Nat :=
  let r1 := wsRunLen l
  if r1 = 0 then none
  else
    match stripPfxCI op (l.drop r1) with
    | none => none
    | some l2 =>
      let r2 := wsRunLen l2
      if r2 = 0 then none else some (r1 + op.length + r2)

/-- Matcher for a literal (non-regex) separator string. -/
def sepLitAt (sep : List Char) (l : List Char) : Option Nat :=
  match stripPfxL sep l with
  | some _ => some sep.length
  | none => none

/-- Matcher for the whitespace-run separator regex. -/
def sepWsAt (l : List Char) : Option Nat :=
  let r := wsRunLen l
  if r = 0 then none else some r

/-- Leftmost separator match: returns the field before the match and the
suffix after it. -/
def findSepAt (sepAt : List Char → Option Nat) : List Char → Option (List Char × List Char)
  | [] =>
    (match sepAt [] with
     | some k => some ([], ([] : List Char).drop k)
     | none => none)
  | c :: cs =>
    match sepAt (c :: cs) with
    | some k => some ([], (c :: cs).drop k)
    | none => (findSepAt sepAt cs).map (fun p => (c :: p.1, p.2))

/-- Splitting by repeated leftmost separator matches, exactly as the
JavaScript split-with-regex does.  All separators used here consume at
least one character, so a fuel of length + 1 never runs out. -/
def splitBySepFuel (sepAt : List Char → Option Nat) : Nat → List Char → List (List Char)
  | 0, l => [l]
  | fuel + 1, l =>
    match findSepAt sepAt l with
    | none => [l]
    | some (pre, post) => pre :: splitBySepFuel sepAt fuel post

def splitBySep (sepAt : List Char → Option Nat) (l : List Char) : List (List Char) :=
  splitBySepFuel sepAt (l.length + 1) l

def digitsToNat (l : List Char) : Nat :=
  l.foldl (fun a c => a * 10 + (c.toNat - 48)) 0

/-- JavaScript parseInt with radix 10 on an already-scalar string: skip
leading whitespace, read an optional sign and then a maximal digit run;
no digits gives NaN, modelled as none. -/
def jsParseInt (s : String) : Option Int :=
  let l := dropLeadWS s.data
  let signAndRest : Int × List Char :=
    match l with
    | '-' :: cs => (-1, cs)
    | '+' :: cs => (1, cs)
    | _ => (1, l)
  let ds := signAndRest.2.takeWhile Char.isDigit
  if ds.isEmpty then none
  else some (signAndRest.1 * Int.ofNat (digitsToNat ds))

def joinStrs (l : List String) : String :=
  l.foldl (fun a s => a ++ s) ""

def intercalateStr (sep : String) : List String → String
  | [] => ""
  | s :: rest => rest.foldl (fun a t => a ++ sep ++ t) s

/-! ## Query model (src/siyuan/query/QueryParser.ts) -/

/-- Query filter operator, in the declaration order of the TypeScript enum;
that order is also the iteration order of Object.entries in parseFilter. -/
inductive QueryOperator
  | EQUALS
  | NOT_EQUALS
  | GREATER_THAN
  | GREATER_THAN_OR_EQUAL
  | LESS_THAN
  | LESS_THAN_OR_EQUAL
  | CONTAINS
  | NOT_CONTAINS
  | IN
  | NOT_IN
deriving DecidableEq, Repr

/-- String value of each operator enum member. -/
def opToken : QueryOperator → String
  | QueryOperator.EQUALS => "="
  | QueryOperator.NOT_EQUALS => "!="
  | QueryOperator.GREATER_THAN => ">"
  | QueryOperator.GREATER_THAN_OR_EQUAL => ">="
  | QueryOperator.LESS_THAN => "<"
  | QueryOperator.LESS_THAN_OR_EQUAL => "<="
  | QueryOperator.CONTAINS => "includes"
  | QueryOperator.NOT_CONTAINS => "not includes"
  | QueryOperator.IN => "in"
  | QueryOperator.NOT_IN => "not in"

/-- Object.entries iteration order over the operator enum. -/
def operatorOrder : List QueryOperator :=
  [QueryOperator.EQUALS, QueryOperator.NOT_EQUALS, QueryOperator.GREATER_THAN,
   QueryOperator.GREATER_THAN_OR_EQUAL, QueryOperator.LESS_THAN,
   QueryOperator.LESS_THAN_OR_EQUAL, QueryOperator.CONTAINS,
   QueryOperator.NOT_CONTAINS, QueryOperator.IN, QueryOperator.NOT_IN]

inductive BooleanLogic
  | AND
  | OR
  | NOT
deriving DecidableEq, Repr

inductive SortDirection
  | ASC
  | DESC
deriving DecidableEq, Repr

/-- A filter value: a scalar string or a comma-produced list of strings. -/
inductive QueryValue
  | scalar (s : String)
  | list (l : List String)
deriving DecidableEq, Repr

structure FilterCondition where
  field : String
  operator : QueryOperator
  value : QueryValue
  logic : Option BooleanLogic
deriving DecidableEq, Repr

structure SortCondition where
  field : String
  direction : SortDirection
deriving DecidableEq, Repr

structure ParsedQuery where
  filters : List FilterCondition
  sorts : List SortCondition
  limit : Option Int
deriving DecidableEq, Repr

/-- QueryParser.parseValue: strip one surrounding quote character from each
end, then split on commas into a trimmed list when a comma remains,
otherwise keep the scalar verbatim. -/
def parseValue (valueStr : String) : QueryValue :=
  let l0 := valueStr.data
  let l1 :=
    match l0 with
    | c :: cs => if c = '\x27' || c = '\x22' then cs else l0
    | [] => []
  let l2 :=
    match l1.reverse with
    | c :: cs => if c = '\x27' || c = '\x22' then cs.reverse else l1
    | [] => l1
  if l2.contains ',' then
    QueryValue.list ((splitOnCharL ',' l2).map (fun f => (⟨trimChars f⟩ : String)))
  else
    QueryValue.scalar ⟨l2⟩

/-- One iteration of the operator loop in QueryParser.parseFilter: split the
clause by the separator regex of this operator and succeed only when that
yields exactly two parts.  Multi-word tokens get the case-insensitive
mandatory-whitespace separator, single-word tokens the case-sensitive
optional-whitespace separator, exactly as the source builds its regexes. -/
def tryOp (filterStr : List Char) (op : QueryOperator) : Option FilterCondition :=
  let tok := (opToken op).data
  let parts :=
    if tok.contains ' ' then splitBySep (sepMultiAt (lowerChars tok)) filterStr
    else splitBySep (sepSingleAt tok) filterStr
  match parts with
  | [a, b] => some ⟨⟨trimChars a⟩, op, parseValue ⟨trimChars b⟩, none⟩
  | _ => none

def parseFilterAux (filterStr : List Char) : List QueryOperator → Option FilterCondition
  | [] => none
  | op :: rest =>
    match tryOp filterStr op with
    | some f => some f
    | none => parseFilterAux filterStr rest

/-- QueryParser.parseFilter: try every operator in enum order and take the
first whose separator splits the clause into exactly a field and a value. -/
def parseFilter (filterStr : String) : Option FilterCondition :=
  parseFilterAux filterStr.data operatorOrder

/-- QueryParser.parseSort: the first whitespace-separated word is the field;
the direction is descending only when a second word equals desc. -/
def parseSort (sortStr : String) : Option SortCondition :=
  let parts := (splitBySep sepWsAt sortStr.data).map (fun l => (⟨l⟩ : String))
  match parts with
  | [] => none
  | p0 :: rest =>
    let direction :=
      match rest with
      | p1 :: _ => if lowerStr p1 = "desc" then SortDirection.DESC else SortDirection.ASC
      | [] => SortDirection.ASC
    some ⟨jsTrim p0, direction⟩

def fieldAliases : List (String × String) :=
  [("due", "due_date"), ("scheduled", "scheduled_date"), ("start", "start_date"),
   ("done", "done_date"), ("cancelled", "cancelled_date"), ("tag", "tags"),
   ("depends", "depends_on")]

/-- QueryParser.normalizeFieldName: look the lowered field up in the alias
table; an unlisted field passes through in its original spelling. -/
def normalizeFieldName (field : String) : String :=
  match (fieldAliases.find? (fun p => p.1 == lowerStr field)).map Prod.snd with
  | some f => f
  | none => field

/-! ## Calendar dates (the JavaScript Date fragment parseQueryDate uses) -/

structure CivilDate where
  y : Int
  m : Int
  d : Int
deriving DecidableEq, Repr

/-- Day count of a proleptic Gregorian date (days since 1970-01-01).  The
formula is affine in the day component, so out-of-range day values roll
over into adjacent months exactly as JavaScript Date normalization does. -/
def civilToDays (yy mm dd : Int) : Int :=
  let y := if mm <= 2 then yy - 1 else yy
  let era := Int.fdiv y 400
  let yoe := y - era * 400
  let mp := mm + (if mm > 2 then -3 else 9)
  let doy := Int.fdiv (153 * mp + 2) 5 + dd - 1
  let doe := yoe * 365 + Int.fdiv yoe 4 - Int.fdiv yoe 100 + doy
  era * 146097 + doe - 719468

/-- Inverse of civilToDays. -/
def daysToCivil (z0 : Int) : CivilDate :=
  let z := z0 + 719468
  let era := Int.fdiv z 146097
  let doe := z - era * 146097
  let yoe := Int.fdiv (doe - Int.fdiv doe 1460 + Int.fdiv doe 36524 - Int.fdiv doe 146096) 365
  let y := yoe + era * 400
  let doy := doe - (365 * yoe + Int.fdiv yoe 4 - Int.fdiv yoe 100)
  let mp := Int.fdiv (5 * doy + 2) 153
  let d := doy - Int.fdiv (153 * mp + 2) 5 + 1
  let m := mp + (if mp < 10 then 3 else -9)
  ⟨(if m <= 2 then y + 1 else y), m, d⟩

/-- JavaScript setDate(getDate() + n). -/
def addDaysCD (c : CivilDate) (n : Int) : CivilDate :=
  daysToCivil (civilToDays c.y c.m c.d + n)

/-- JavaScript setMonth(getMonth() + n): month arithmetic with year carry,
then day-overflow normalization. -/
def setMonthAdd (c : CivilDate) (n : Int) : CivilDate :=
  let m0 := c.m - 1 + n
  let y := c.y + Int.fdiv m0 12
  let m := Int.emod m0 12 + 1
  daysToCivil (civilToDays y m c.d)

/-- JavaScript setFullYear(getFullYear() + n): day-overflow normalization
(Feb 29 of a non-leap target year becomes Mar 1). -/
def setYearAdd (c : CivilDate) (n : Int) : CivilDate :=
  daysToCivil (civilToDays (c.y + n) c.m c.d)

def pad2 (n : Int) : String :=
  if n < 10 then "0" ++ toString n else toString n

/-- QueryParser.formatDate: YYYY-MM-DD with zero-padded month and day. -/
def formatDate (c : CivilDate) : String :=
  toString c.y ++ "-" ++ pad2 c.m ++ "-" ++ pad2 c.d

/-- Tail of the anchored relative-date regex after the base word: optional
whitespace, a sign, optional whitespace, a digit run, one unit letter, end
of input.  Input is already lowered. -/
def matchRelTail (base : String) (rest : List Char) : Option (String × Bool × Nat × Char) :=
  match rest.drop (wsRunLen rest) with
  | sgn :: r2 =>
    if sgn = '+' || sgn = '-' then
      let r3 := r2.drop (wsRunLen r2)
      let ds := r3.takeWhile Char.isDigit
      if ds.isEmpty then none
      else
        match r3.drop ds.length with
        | [u] =>
          if u = 'd' || u = 'w' || u = 'm' || u = 'y' then
            some (base, sgn = '+', digitsToNat ds, u)
          else none
        | _ => none
    else none
  | [] => none

/-- The anchored case-insensitive relative-date regex of parseQueryDate,
with its alternation order today, tomorrow, yesterday. -/
def matchRelative (s : String) : Option (String × Bool × Nat × Char) :=
  let l := lowerChars s.data
  match stripPfxL "today".data l with
  | some rest => matchRelTail "today" rest
  | none =>
    match stripPfxL "tomorrow".data l with
    | some rest => matchRelTail "tomorrow" rest
    | none =>
      match stripPfxL "yesterday".data l with
      | some rest => matchRelTail "yesterday" rest
      | none => none

/-- QueryParser.parseQueryDate.  The source reads the current clock (new
Date with the time cleared); the embedding passes that calendar date in as
the today argument. -/
def parseQueryDate (today : CivilDate) (dateStr : String) : String :=
  match matchRelative dateStr with
  | some (base, pos, amount, unit) =>
    let baseDate :=
      if base = "tomorrow" then addDaysCD today 1
      else if base = "yesterday" then addDaysCD today (-1)
      else today
    let offset : Int := Int.ofNat amount * (if pos then 1 else -1)
    let res :=
      if unit = 'd' then addDaysCD baseDate offset
      else if unit = 'w' then addDaysCD baseDate (offset * 7)
      else if unit = 'm' then setMonthAdd baseDate offset
      else setYearAdd baseDate offset
    formatDate res
  | none =>
    if lowerStr dateStr = "today" then formatDate today
    else if lowerStr dateStr = "tomorrow" then formatDate (addDaysCD today 1)
    else if lowerStr dateStr = "yesterday" then formatDate (addDaysCD today (-1))
    else dateStr

/-! ## QueryParser.parse -/

/-- The replace of an initial where-plus-whitespace (case-insensitive),
used inside the inline connective branches. -/
def stripWherePfxL (l : List Char) : List Char :=
  match stripPfxCI "where".data l with
  | none => l
  | some rest =>
    let r := wsRunLen rest
    if r = 0 then l else rest.drop r

/-- The loop body of the inline connective branches: each split part has a
leading where-prefix removed, is trimmed and parsed; the first part takes
the pending standalone logic marker, later parts the branch connective. -/
def addInlineFiltersAux (lg : BooleanLogic) (cur : Option BooleanLogic) :
    Bool → ParsedQuery → List (List Char) → ParsedQuery
  | _, q, [] => q
  | first, q, p :: rest =>
    let filterPart := jsTrim ⟨stripWherePfxL p⟩
    let q2 :=
      match parseFilter filterPart with
      | some f =>
        { q with filters := q.filters ++ [{ f with logic := if first then cur else some lg }] }
      | none => q
    addInlineFiltersAux lg cur false q2 rest

/-- One iteration of the line loop of QueryParser.parse, threading the
pending standalone logic marker. -/
def parseLine (st : ParsedQuery × Option BooleanLogic) (line : String) :
    ParsedQuery × Option BooleanLogic :=
  let q := st.1
  let currentLogic := st.2
  let low := lowerStr line
  if low = "tasks" then st
  else if myStartsWith low "where " then
    let filterPart := jsTrim ⟨line.data.drop 6⟩
    match parseFilter filterPart with
    | some f => ({ q with filters := q.filters ++ [{ f with logic := currentLogic }] }, none)
    | none => (q, currentLogic)
  else if low = "and" then (q, some BooleanLogic.AND)
  else if low = "or" then (q, some BooleanLogic.OR)
  else if low = "not" then (q, some BooleanLogic.NOT)
  else if containsSubL " and ".data low.data then
    let parts := splitBySep (sepMultiAt "and".data) line.data
    (addInlineFiltersAux BooleanLogic.AND currentLogic true q parts, none)
  else if containsSubL " or ".data low.data then
    let parts := splitBySep (sepMultiAt "or".data) line.data
    (addInlineFiltersAux BooleanLogic.OR currentLogic true q parts, none)
  else if myStartsWith low "sort by " then
    let sortPart := jsTrim ⟨line.data.drop 8⟩
    match parseSort sortPart with
    | some srt => ({ q with sorts := q.sorts ++ [srt] }, currentLogic)
    | none => (q, currentLogic)
  else if myStartsWith low "limit " then
    let limitPart := jsTrim ⟨line.data.drop 6⟩
    match jsParseInt limitPart with
    | some n => ({ q with limit := some n }, currentLogic)
    | none => (q, currentLogic)
  else (q, currentLogic)

/-- QueryParser.parse: split into trimmed lines, drop blank and comment
lines, and fold the line handler over the rest. -/
def parse (queryString : String) : ParsedQuery :=
  let lines :=
    ((splitOnCharL '\n' queryString.data).map (fun l => (⟨trimChars l⟩ : String))).filter
      (fun s => s != "" && !(myStartsWith s "#"))
  (lines.foldl parseLine (⟨[], [], none⟩, none)).1

/-! ## QueryOptimizer (src/siyuan/query/QueryOptimizer.ts) -/

structure QueryOptimizationSettings where
  maxExecutionTime : Int
  maxResults : Int
  enableCache : Bool
  cacheTimeout : Int
deriving DecidableEq, Repr

def DEFAULT_OPTIMIZATION_SETTINGS : QueryOptimizationSettings :=
  ⟨5000, 1000, true, 60000⟩

/-- JavaScript falsiness of the optional numeric limit: absent or zero. -/
def jsLimitFalsy : Option Int → Bool
  | none => true
  | some n => n == 0

/-- QueryOptimizer.optimize: when the limit is falsy or exceeds the
configured maximum it is replaced by the configured maximum. -/
def optimize (settings : QueryOptimizationSettings) (query : ParsedQuery) : ParsedQuery :=
  match query.limit with
  | none => { query with limit := some settings.maxResults }
  | some n =>
    if n = 0 ∨ n > settings.maxResults then { query with limit := some settings.maxResults }
    else query

structure ValidationResult where
  valid : Bool
  error : Option String
deriving DecidableEq, Repr

/-- The per-filter check of the validation loop: an array value longer than
100 entries. -/
def hasLongListValue (filter : FilterCondition) : Bool :=
  match filter.value with
  | QueryValue.list l => 100 < l.length
  | QueryValue.scalar _ => false

/-- QueryOptimizer.validateQuery. -/
def validateQuery (query : ParsedQuery) : ValidationResult :=
  if query.filters.isEmpty && jsLimitFalsy query.limit then
    ⟨false, some "Query without filters must have a limit to prevent performance issues"⟩
  else
    match query.filters.find? hasLongListValue with
    | some _ => ⟨false, some "Filter with more than 100 values may cause performance issues"⟩
    | none => ⟨true, none⟩

/-! ## QueryEngine SQL compilation (src/siyuan/query/QueryEngine.ts) -/

/-- QueryEngine.escapeSQL.  The source chains four global replaces; since no
replacement output contains a target of an earlier stage, the chain equals
this characterwise map. -/
def escapeSQLChar (c : Char) : String :=
  if c = '\\' then "\\\\"
  else if c = '\x27' then "\x27\x27"
  else if c = '%' then "\\%"
  else if c = '_' then "\\_"
  else ⟨[c]⟩

def escapeSQL (value : String) : String :=
  joinStrs (value.data.map escapeSQLChar)

def underscoreToDash (s : String) : String :=
  ⟨s.data.map (fun c => if c = '_' then '-' else c)⟩

/-- The value extraction shared by the clause builders: the scalar itself,
or the first element of a list value (parseValue never builds an empty
list, so the placeholder default is unreachable from parsed queries). -/
def valueFirst : QueryValue → String
  | QueryValue.scalar s => s
  | QueryValue.list l => l.headD ""

/-- QueryEngine.buildStatusFilter. -/
def buildStatusFilter (filter : FilterCondition) : String :=
  let statusUpper := upperStr (valueFirst filter.value)
  match filter.operator with
  | QueryOperator.EQUALS =>
    "(ial LIKE \x27%custom-task-status=\"" ++ statusUpper ++ "\"%\x27)"
  | QueryOperator.NOT_EQUALS =>
    "(ial NOT LIKE \x27%custom-task-status=\"" ++ statusUpper ++ "\"%\x27)"
  | _ => "(ial LIKE \x27%custom-task-status%\x27)"

def stripHash (s : String) : String :=
  match s.data with
  | '#' :: rest => ⟨rest⟩
  | _ => s

/-- QueryEngine.buildTagsFilter. -/
def buildTagsFilter (filter : FilterCondition) : String :=
  let cleanTag := stripHash (valueFirst filter.value)
  match filter.operator with
  | QueryOperator.CONTAINS =>
    "(ial LIKE \x27%custom-task-tags=\"%" ++ escapeSQL cleanTag ++ "%\"%\x27)"
  | QueryOperator.IN =>
    "(ial LIKE \x27%custom-task-tags=\"%" ++ escapeSQL cleanTag ++ "%\"%\x27)"
  | QueryOperator.NOT_CONTAINS =>
    "(ial NOT LIKE \x27%custom-task-tags=\"%" ++ escapeSQL cleanTag ++ "%\"%\x27)"
  | QueryOperator.NOT_IN =>
    "(ial NOT LIKE \x27%custom-task-tags=\"%" ++ escapeSQL cleanTag ++ "%\"%\x27)"
  | _ => "(ial LIKE \x27%custom-task-tags%\x27)"

/-- QueryEngine.buildDateFilter: equality against the resolved date, but a
bare attribute-existence pattern for every ordering operator. -/
def buildDateFilter (today : CivilDate) (attrName : String) (filter : FilterCondition) : String :=
  let parsedDate := parseQueryDate today (valueFirst filter.value)
  match filter.operator with
  | QueryOperator.EQUALS =>
    "(ial LIKE \x27%" ++ attrName ++ "=\"" ++ parsedDate ++ "\"%\x27)"
  | QueryOperator.NOT_EQUALS =>
    "(ial NOT LIKE \x27%" ++ attrName ++ "=\"" ++ parsedDate ++ "\"%\x27)"
  | QueryOperator.LESS_THAN => "(ial LIKE \x27%" ++ attrName ++ "%\x27)"
  | QueryOperator.LESS_THAN_OR_EQUAL => "(ial LIKE \x27%" ++ attrName ++ "%\x27)"
  | QueryOperator.GREATER_THAN => "(ial LIKE \x27%" ++ attrName ++ "%\x27)"
  | QueryOperator.GREATER_THAN_OR_EQUAL => "(ial LIKE \x27%" ++ attrName ++ "%\x27)"
  | _ => "(ial LIKE \x27%" ++ attrName ++ "%\x27)"

/-- QueryEngine.buildFilterClause. -/
def buildFilterClause (today : CivilDate) (filter : FilterCondition) : String :=
  let field := normalizeFieldName filter.field
  let attrName := "custom-task-" ++ underscoreToDash field
  if field = "status" then buildStatusFilter filter
  else if field = "tags" then buildTagsFilter filter
  else if myEndsWith field "_date" then buildDateFilter today attrName filter
  else
    let value := valueFirst filter.value
    match filter.operator with
    | QueryOperator.EQUALS =>
      "(ial LIKE \x27%" ++ attrName ++ "=\"" ++ escapeSQL value ++ "\"%\x27)"
    | QueryOperator.NOT_EQUALS =>
      "(ial NOT LIKE \x27%" ++ attrName ++ "=\"" ++ escapeSQL value ++ "\"%\x27)"
    | QueryOperator.CONTAINS =>
      "(ial LIKE \x27%" ++ attrName ++ "=\"%" ++ escapeSQL value ++ "%\"%\x27)"
    | QueryOperator.NOT_CONTAINS =>
      "(ial NOT LIKE \x27%" ++ attrName ++ "=\"%" ++ escapeSQL value ++ "%\"%\x27)"
    | _ => "(ial LIKE \x27%" ++ attrName ++ "%\x27)"

/-- QueryEngine.buildWhereClauses: a seed clause requiring the task-id
attribute, then for each filter a connective token (per the branch chain of
the source) followed by the filter clause. -/
def buildWhereClauses (today : CivilDate) (filters : List FilterCondition) : List String :=
  let base := ["(ial LIKE \x27%custom-task-id%\x27)"]
  filters.enum.foldl
    (fun clauses p =>
      let i := p.1
      let filter := p.2
      let clause := buildFilterClause today filter
      let conn : List String :=
        if i = 0 ∧ filter.logic = none then ["AND"]
        else if filter.logic = some BooleanLogic.AND then ["AND"]
        else if filter.logic = some BooleanLogic.OR then ["OR"]
        else if filter.logic = some BooleanLogic.NOT then ["AND NOT"]
        else if i > 0 then ["AND"]
        else []
      clauses ++ conn ++ [clause])
    base

/-- QueryEngine.buildSortClause: only a description sort uses the content
column; every other field falls back to the created column. -/
def buildSortClause (sort : SortCondition) : String :=
  let field := normalizeFieldName sort.field
  let direction := if sort.direction = SortDirection.DESC then "DESC" else "ASC"
  if field = "description" then "content " ++ direction
  else "created " ++ direction

/-- QueryEngine.compileToSQL. -/
def compileToSQL (today : CivilDate) (query : ParsedQuery) : String :=
  let parts1 := ["SELECT * FROM blocks"]
  let whereClauses := buildWhereClauses today query.filters
  let parts2 :=
    if whereClauses.length > 0 then parts1 ++ ["WHERE " ++ intercalateStr " " whereClauses]
    else parts1
  let parts3 :=
    if query.sorts.length > 0 then
      parts2 ++ ["ORDER BY " ++ intercalateStr ", " (query.sorts.map buildSortClause)]
    else parts2
  let parts4 :=
    match query.limit with
    | some n => if n = 0 then parts3 else parts3 ++ ["LIMIT " ++ toString n]
    | none => parts3
  intercalateStr " " parts4

/-! ## Task records (src/siyuan/types/TaskData.ts) -/

structure TaskData where
  task_id : String
  status : String
  status_symbol : String
  due_date : Option String
  scheduled_date : Option String
  start_date : Option String
  done_date : Option String
  cancelled_date : Option String
  priority : Option Int
  recurrence_rule : Option String
  base_on_completion : Bool
  next_due : Option String
  last_completed : Option String
  tags : List String
  description : String
  depends_on : List String
  id_for_deps : Option String
  source_block_id : String
  created_at : String
  updated_at : String
deriving DecidableEq, Repr

def getAttr (attrs : List (String × String)) (key : String) : Option String :=
  (attrs.find? (fun p => p.1 == key)).map Prod.snd

/-- JavaScript falsiness of an optional attribute string: absent or empty. -/
def attrFalsy : Option String → Bool
  | none => true
  | some s => s == ""

/-- The JavaScript a-or-else-b idiom on an optional attribute string. -/
def attrOrElse (o : Option String) (dflt : String) : String :=
  match o with
  | none => dflt
  | some s => if s == "" then dflt else s

/-- Modelled from the spec: the repository calls the JavaScript built-in
JSON.parse on tag and dependency lists; this model handles the flat string
arrays JSON.stringify writes for them (no escape sequences), which is the
only shape the system itself produces. -/
def parseJsonStringList (s : String) : List String :=
  match trimChars s.data with
  | '[' :: rest =>
    let inner :=
      match rest.reverse with
      | ']' :: mid => mid.reverse
      | _ => rest
    let items := (splitOnCharL ',' inner).map trimChars
    (items.filter (fun f => !f.isEmpty)).map (fun f =>
      match f with
      | '\x22' :: fr =>
        (match fr.reverse with
         | '\x22' :: mid => (⟨mid.reverse⟩ : String)
         | _ => (⟨fr⟩ : String))
      | _ => (⟨f⟩ : String))
  | _ => []

/-- blockAttributesToTaskData.  The source defaults the created and updated
timestamps to the current clock in ISO form; the embedding passes that
string in as nowIso. -/
def blockAttributesToTaskData (nowIso : String) (blockId : String)
    (attrs : List (String × String)) : Option TaskData :=
  if attrFalsy (getAttr attrs "custom-task-id") ||
      attrFalsy (getAttr attrs "custom-task-description") then none
  else some
    { task_id := (getAttr attrs "custom-task-id").getD ""
      status := attrOrElse (getAttr attrs "custom-task-status") "TODO"
      status_symbol := attrOrElse (getAttr attrs "custom-task-symbol") "[ ]"
      due_date := getAttr attrs "custom-task-due"
      scheduled_date := getAttr attrs "custom-task-scheduled"
      start_date := getAttr attrs "custom-task-start"
      done_date := getAttr attrs "custom-task-done"
      cancelled_date := getAttr attrs "custom-task-cancelled"
      priority := jsParseInt (attrOrElse (getAttr attrs "custom-task-priority") "6")
      recurrence_rule := getAttr attrs "custom-task-recurrence"
      base_on_completion := getAttr attrs "custom-task-base-on-completion" == some "true"
      next_due := getAttr attrs "custom-task-next-due"
      last_completed := getAttr attrs "custom-task-last-completed"
      tags :=
        (match getAttr attrs "custom-task-tags" with
         | some s => if s == "" then [] else parseJsonStringList s
         | none => [])
      description := (getAttr attrs "custom-task-description").getD ""
      depends_on :=
        (match getAttr attrs "custom-task-depends-on" with
         | some s => if s == "" then [] else parseJsonStringList s
         | none => [])
      id_for_deps := getAttr attrs "custom-task-id-for-deps"
      source_block_id := blockId
      created_at := attrOrElse (getAttr attrs "custom-task-created-at") nowIso
      updated_at := attrOrElse (getAttr attrs "custom-task-updated-at") nowIso }

/-! ## Model of the external record source

The record source (SiYuanAPI, an HTTP wrapper around the SiYuan kernel) is
an external collaborator.  Per the spec it offers a narrowing operation
that evaluates a native predicate string over the block table (coarse
substring-style LIKE predicates) and a hydration operation from a block id
to its attribute set. -/

structure BlockRow where
  id : String
  ial : String
  created : String
  content : String
  attrs : List (String × String)
deriving DecidableEq, Repr

abbrev Store := List BlockRow

/-- SQL LIKE pattern match: percent matches any run, underscore any single
character, everything else literally.  Structural recursion on a fuel that
bounds the combined length, which every step strictly decreases, so the
initial fuel in likeMatch below never runs out. -/
def likeMatchF : Nat → List Char → List Char → Bool
  | 0, p, t => p.isEmpty && t.isEmpty
  | _ + 1, [], [] => true
  | _ + 1, [], _ :: _ => false
  | fuel + 1, '%' :: ps, t =>
    likeMatchF fuel ps t ||
      (match t with
       | [] => false
       | _ :: ts => likeMatchF fuel ('%' :: ps) ts)
  | fuel + 1, '_' :: ps, _ :: ts => likeMatchF fuel ps ts
  | _ + 1, '_' :: _, [] => false
  | fuel + 1, p :: ps, c :: ts => p == c && likeMatchF fuel ps ts
  | _ + 1, _ :: _, [] => false

def likeMatch (pattern text : List Char) : Bool :=
  likeMatchF (pattern.length + text.length + 1) pattern text

/-- Split a string at the first occurrence of a separator. -/
def splitFirst (sep : String) (s : String) : String × Option String :=
  match findSubIdx sep.data s.data with
  | none => (s, none)
  | some i => (⟨s.data.take i⟩, some ⟨s.data.drop (i + sep.data.length)⟩)

/-- Tokenize a WHERE expression at spaces outside parentheses, yielding
parenthesized clause tokens and bare connective words. -/
def tokenizeDepth : Nat → List Char → List Char → List String → List String
  | _, acc, [], toks => if acc.isEmpty then toks else toks ++ [⟨acc.reverse⟩]
  | depth, acc, c :: cs, toks =>
    if c = ' ' ∧ depth = 0 then
      if acc.isEmpty then tokenizeDepth 0 [] cs toks
      else tokenizeDepth 0 [] cs (toks ++ [⟨acc.reverse⟩])
    else
      let depth2 := if c = '(' then depth + 1 else if c = ')' then depth - 1 else depth
      tokenizeDepth depth2 (c :: acc) cs toks

def tokenizeClauses (s : String) : List String := tokenizeDepth 0 [] s.data []

/-- Evaluate one parenthesized clause token against a row ial: the compiler
only emits tokens of the two shapes ial-LIKE-pattern and
ial-NOT-LIKE-pattern. -/
def evalClauseTok (ial : String) (tok : String) : Bool :=
  match stripPfxL "(ial NOT LIKE \x27".data tok.data with
  | some rest =>
    (match rest.reverse with
     | ')' :: '\x27' :: mid => !likeMatch mid.reverse ial.data
     | _ => false)
  | none =>
    match stripPfxL "(ial LIKE \x27".data tok.data with
    | some rest =>
      (match rest.reverse with
       | ')' :: '\x27' :: mid => likeMatch mid.reverse ial.data
       | _ => false)
    | none => false

/-- Fold the connective chain left to right (spec: conditions combine
strictly left to right; the claims exercised use only AND chains, where
this agrees with SQL operator precedence). -/
def evalConn (ial : String) (acc : Bool) : List String → Bool
  | [] => acc
  | "AND" :: "NOT" :: t :: rest => evalConn ial (acc && !evalClauseTok ial t) rest
  | "AND" :: t :: rest => evalConn ial (acc && evalClauseTok ial t) rest
  | "OR" :: t :: rest => evalConn ial (acc || evalClauseTok ial t) rest
  | _ => acc

def evalWhereStr (ial : String) (ws : String) : Bool :=
  match tokenizeClauses ws with
  | [] => true
  | t :: rest => evalConn ial (evalClauseTok ial t) rest

/-- An ORDER BY item: column name and descending flag. -/
def parseOrderItem (s : String) : String × Bool :=
  let parts := (splitBySep sepWsAt (trimChars s.data)).map (fun l => (⟨l⟩ : String))
  match parts with
  | col :: rest => (col, rest.headD "" == "DESC")
  | [] => ("", false)

/-- Value of the named column on a row; the compiler only names the created
and content columns. -/
def rowKey (col : String) (r : BlockRow) : String :=
  if col == "created" then r.created
  else if col == "content" then r.content
  else ""

def cmpRows (keys : List (String × Bool)) (a b : BlockRow) : Ordering :=
  match keys with
  | [] => Ordering.eq
  | (col, dsc) :: rest =>
    let o := compare (rowKey col a) (rowKey col b)
    let o2 :=
      if dsc then
        (match o with
         | Ordering.lt => Ordering.gt
         | Ordering.gt => Ordering.lt
         | Ordering.eq => Ordering.eq)
      else o
    match o2 with
    | Ordering.eq => cmpRows rest a b
    | r => r

/-- Stable insertion: an element goes before the first strictly greater
element, so equal keys keep their original order. -/
def insertRow (keys : List (String × Bool)) (r : BlockRow) : List BlockRow → List BlockRow
  | [] => [r]
  | y :: ys =>
    if cmpRows keys r y == Ordering.gt then y :: insertRow keys r ys
    else r :: y :: ys

def sortRows (keys : List (String × Bool)) : List BlockRow → List BlockRow
  | [] => []
  | r :: rs => insertRow keys r (sortRows keys rs)

/-- Modelled from the spec: the external narrowing operation
(SiYuanAPI.querySQL, an HTTP call into the SiYuan kernel, outside this
repository).  It evaluates the compiled SELECT statement over an in-memory
block table: the WHERE chain over LIKE substring predicates, ORDER BY with
a stable sort on the named columns, and LIMIT by truncation (a negative
limit returns everything, as in SQLite). -/
def modelQuerySQL (store : Store) (sql : String) : List BlockRow :=
  match (splitFirst " WHERE " sql).2 with
  | none => store
  | some rest =>
    let p1 := splitFirst " ORDER BY " rest
    let segs :=
      match p1.2 with
      | some tail =>
        let q := splitFirst " LIMIT " tail
        (p1.1, q.1, q.2)
      | none =>
        let q := splitFirst " LIMIT " p1.1
        (q.1, "", q.2)
    let filtered := store.filter (fun r => evalWhereStr r.ial segs.1)
    let ordered :=
      if segs.2.1 == "" then filtered
      else
        sortRows (((splitBySep (sepLitAt ", ".data) segs.2.1.data).map
          (fun l => parseOrderItem (⟨l⟩ : String)))) filtered
    match segs.2.2 with
    | some ls =>
      (match jsParseInt ls with
       | some n => if n < 0 then ordered else ordered.take n.toNat
       | none => ordered)
    | none => ordered

/-- Modelled from the spec: the external hydration operation
(SiYuanAPI.getBlockAttrs) resolving a block id to its attribute set. -/
def getBlockAttrs (store : Store) (blockId : String) : Option (List (String × String)) :=
  (store.find? (fun r => r.id == blockId)).map BlockRow.attrs

/-- QueryEngine.resultsToTasks: hydrate each candidate row and keep the
successful conversions; a hydration failure is logged and skipped in the
source, never aborting the batch. -/
def resultsToTasks (store : Store) (nowIso : String) (results : List BlockRow) : List TaskData :=
  results.foldl
    (fun tasks r =>
      match getBlockAttrs store r.id with
      | none => tasks
      | some attrs =>
        match blockAttributesToTaskData nowIso r.id attrs with
        | some task => tasks ++ [task]
        | none => tasks)
    []

/-! ## QueryEngine.executeQuery with its cache -/

/-- The engine state: the query cache keyed by the raw query string, plus a
fetch counter instrumenting calls to the record source (the fetch-count
test double the spec prescribes for observing cache behavior; it is not
part of the program state). -/
structure EngineState where
  cache : String → Option (List TaskData × Int)
  fetches : Nat

def initES : EngineState := ⟨fun _ => none, 0⟩

/-- The cache-miss path of executeQuery: parse, compile, narrow against the
record source, hydrate. -/
def freshExecute (store : Store) (today : CivilDate) (nowIso : String)
    (queryString : String) : List TaskData :=
  let query := parse queryString
  let sql := compileToSQL today query
  let results := modelQuerySQL store sql
  resultsToTasks store nowIso results

/-- QueryEngine.executeQuery.  The source reads Date.now for the freshness
check and again for the cache write within one call; both reads are
modelled by the single now argument.  A fresh (non-expired, cache-enabled)
hit returns the stored result unchanged; otherwise the fresh result is
computed and written to the cache under the raw query string. -/
def executeQuery (store : Store) (today : CivilDate) (now : Int) (nowIso : String)
    (cacheTimeout : Int) (queryString : String) (useCache : Bool) (st : EngineState) :
    List TaskData × EngineState :=
  let hit : Option (List TaskData) :=
    if useCache then
      match st.cache queryString with
      | some e => if now - e.2 < cacheTimeout then some e.1 else none
      | none => none
    else none
  match hit with
  | some res => (res, st)
  | none =>
    let tasks := freshExecute store today nowIso queryString
    (tasks,
      { cache := fun k => if k = queryString then some (tasks, now) else st.cache k
        fetches := st.fetches + 1 })

/-! ## Global filter service and plugin entry (PluginSettings.ts, GlobalFilterService.ts) -/

structure GlobalFilterSettings where
  excludedNotebooks : List String
  excludedPaths : List String
  excludedTags : List String
  includedTags : List String
  defaultConditions : String
deriving DecidableEq, Repr

def defaultGlobalFilter : GlobalFilterSettings := ⟨[], [], [], [], ""⟩

/-- GlobalFilterService.matchesTag: both sides lose a leading hash, then the
pattern is matched as an anchored case-insensitive glob (star and question
mark wildcards). -/
def globMatchCIF : Nat → List Char → List Char → Bool
  | 0, p, t => p.isEmpty && t.isEmpty
  | _ + 1, [], [] => true
  | _ + 1, [], _ :: _ => false
  | fuel + 1, '*' :: ps, t =>
    globMatchCIF fuel ps t ||
      (match t with
       | [] => false
       | _ :: ts => globMatchCIF fuel ('*' :: ps) ts)
  | fuel + 1, '?' :: ps, _ :: ts => globMatchCIF fuel ps ts
  | _ + 1, '?' :: _, [] => false
  | fuel + 1, p :: ps, c :: ts => p.toLower == c.toLower && globMatchCIF fuel ps ts
  | _ + 1, _ :: _, [] => false

def globMatchCI (pattern text : List Char) : Bool :=
  globMatchCIF (pattern.length + text.length + 1) pattern text

def matchesTag (tag pat : String) : Bool :=
  globMatchCI (stripHash pat).data (stripHash tag).data

/-- GlobalFilterService.passesFilters. -/
def passesFilters (gf : GlobalFilterSettings) (task : TaskData) : Bool :=
  if !gf.excludedTags.isEmpty &&
      task.tags.any (fun tag => gf.excludedTags.any (fun ex => matchesTag tag ex)) then
    false
  else if !gf.includedTags.isEmpty &&
      !(task.tags.any (fun tag => gf.includedTags.any (fun inc => matchesTag tag inc))) then
    false
  else true

def filterTasks (gf : GlobalFilterSettings) (tasks : List TaskData) : List TaskData :=
  tasks.filter (passesFilters gf)

/-- GlobalFilterService.appendToQuery. -/
def appendToQuery (gf : GlobalFilterSettings) (queryString : String) : String :=
  let defaultConditions := jsTrim gf.defaultConditions
  if defaultConditions == "" then queryString
  else if containsSubL "where".data (lowerStr queryString).data then
    queryString ++ "\nand " ++ defaultConditions
  else
    queryString ++ "\nwhere " ++ defaultConditions

/-- SiYuanTasksPlugin.handleQueryExecute: append the global default
conditions, run the engine, filter the results.  The source wraps the
engine call in QueryOptimizer.executeWithTimeout, which invokes the work
immediately and races only the delivery of its result against a timer, so
the record-source interaction itself is unaffected by the race; neither
validateQuery nor optimize is called anywhere on this path. -/
def handleQueryExecute (gf : GlobalFilterSettings) (store : Store) (today : CivilDate)
    (now : Int) (nowIso : String) (cacheTimeout : Int) (query : String) (st : EngineState) :
    List TaskData × EngineState :=
  let filteredQuery := appendToQuery gf query
  let p := executeQuery store today now nowIso cacheTimeout filteredQuery true st
  (filterTasks gf p.1, p.2)

/-! ## Concrete fixtures for the settled claims -/

/-- Inline attribute list text the record store keeps for a block with the
given attributes; the native LIKE predicates probe this text. -/
def mkIal (attrs : List (String × String)) : String :=
  intercalateStr " " (attrs.map (fun p => p.1 ++ "=\"" ++ p.2 ++ "\""))

/-- The evaluation clock fixed by the spec scenarios: 2026-01-25. -/
def d2026 : CivilDate := ⟨2026, 1, 25⟩

/-- A task block carrying the standard attributes plus an extra custom
attribute named custom-task-due-date, the name the date-filter compiler
probes for. -/
def attrs1 : List (String × String) :=
  [("custom-task-id", "t1"), ("custom-task-description", "demo task"),
   ("custom-task-status", "TODO"), ("custom-task-due", "2026-03-05"),
   ("custom-task-due-date", "2026-03-05"),
   ("custom-task-created-at", "2026-01-01"), ("custom-task-updated-at", "2026-01-01")]

def store1 : Store := [⟨"b1", mkIal attrs1, "20230101", "demo task", attrs1⟩]

/-- A task block with the attribute set the system itself writes. -/
def mkRow (bid tid desc status due created : String) : BlockRow :=
  let a := [("custom-task-id", tid), ("custom-task-description", desc),
            ("custom-task-status", status), ("custom-task-due", due),
            ("custom-task-created-at", "2026-01-01"), ("custom-task-updated-at", "2026-01-01")]
  ⟨bid, mkIal a, created, desc, a⟩

/-- The three records of the end-to-end spec scenario: due 2026-01-20 done,
due 2026-01-26 todo, due 2026-02-10 todo. -/
def store3 : Store :=
  [mkRow "bA" "a1" "pay bill" "DONE" "2026-01-20" "20260110",
   mkRow "bB" "b1" "write report" "TODO" "2026-01-26" "20260111",
   mkRow "bC" "c1" "plan trip" "TODO" "2026-02-10" "20260112"]

/-- Two todo records whose creation order disagrees with their due order. -/
def store2 : Store :=
  [mkRow "bX" "t1" "first" "TODO" "2026-02-10" "20230101",
   mkRow "bY" "t2" "second" "TODO" "2026-01-01" "20230202"]

/-- Lexicographic strict comparison on character lists, the order of the
dash-separated date strings. -/
def strLtL : List Char → List Char → Bool
  | [], [] => false
  | [], _ :: _ => true
  | _ :: _, [] => false
  | a :: as, b :: bs => if a < b then true else if b < a then false else strLtL as bs

/-- Comparison on optional due dates with a missing value minimal, the
ascending-order reading of the sort contract. -/
def optStrLe : Option String → Option String → Bool
  | none, _ => true
  | some _, none => false
  | some a, some b => !strLtL b.data a.data

/-- Whether a task list is ascending in the due date. -/
def sortedByDueAsc : List TaskData → Bool
  | [] => true
  | [_] => true
  | a :: b :: rest => optStrLe a.due_date b.due_date && sortedByDueAsc (b :: rest)

/-- A cache state holding one unrelated entry, for the frame theorems. -/
def stWitness : EngineState :=
  ⟨fun k => if k = "other" then some ([], 5) else none, 0⟩

/-! ## Theorems for the claims -/

/-- Claim C1 (code evaluated at the failing input): executing the
date-ordering query asking for due before 2026-01-01 against a store whose
single record has due date 2026-03-05 returns that record, although its
due date violates the comparison.  The ordering operators compile to a
bare attribute-existence predicate and resultsToTasks applies no refine
pass after hydration, so the returned set is not exact. -/
theorem c1_no_refine_pass :
    ((executeQuery store1 d2026 0 "" 60000 "tasks\nwhere due < 2026-01-01" true initES).1.map
        TaskData.due_date = [some "2026-03-05"])
    ∧ strLtL "2026-03-05".data "2026-01-01".data = false := by
  decide

/-- Claim C2 (code evaluated at the failing input): the end-to-end spec
scenario at clock 2026-01-25 returns no records at all instead of the one
2026-01-26 todo.  The clause status-not-equals-done parses as an equality
on the junk field status-bang (the equals token is matched inside the
not-equals token), the indented and-continuation line is dropped entirely,
and the resulting predicate matches no record. -/
theorem c2_end_to_end_returns_nothing :
    ((parse "tasks\nwhere status != done\n  and due <= today + 7d\nsort by due asc\nlimit 50").filters.map
        (fun f => (f.field, f.operator)) = [("status !", QueryOperator.EQUALS)])
    ∧ (executeQuery store3 d2026 0 "" 60000
        "tasks\nwhere status != done\n  and due <= today + 7d\nsort by due asc\nlimit 50" true
        initES).1 = [] := by
  decide

/-- Claim C3 (code evaluated at the failing input): a clause using the
not-includes operator parses as a CONTAINS filter with the stray token left
in the field, because parseFilter iterates the operators in enum order and
the single-word includes token is tried before the multi-word not-includes
token that contains it. -/
theorem c3_not_includes_misparsed :
    parseFilter "description not includes foo" =
      some ⟨"description not", QueryOperator.CONTAINS, QueryValue.scalar "foo", none⟩ := by
  decide

/-- Claim C4 (code evaluated at the failing input): the bare query tasks has
zero filters and no limit, so validateQuery rejects it; yet the end-to-end
execution path performs a record-source fetch for it, because
handleQueryExecute never invokes validateQuery or optimize. -/
theorem c4_invalid_query_reaches_record_source :
    (validateQuery (parse "tasks")).valid = false
    ∧ (handleQueryExecute defaultGlobalFilter [] d2026 0 "" 60000 "tasks" initES).2.fetches
        = 1 := by
  decide

/-- Claim C5 counterexample: for the parsed query with the present but
negative limit -5 the claim demands the configured maximum 1000, but
optimize leaves the negative limit untouched, so the optimizer-set limit is
neither the configured maximum nor positive. -/
theorem c5_counterexample_negative_limit :
    (optimize DEFAULT_OPTIMIZATION_SETTINGS ⟨[], [], some (-5)⟩).limit = some (-5)
    ∧ (optimize DEFAULT_OPTIMIZATION_SETTINGS ⟨[], [], some (-5)⟩).limit
        ≠ some DEFAULT_OPTIMIZATION_SETTINGS.maxResults := by
  decide

/-- Claim C5 as amended: with a positive configured maximum, a missing or
zero limit becomes the configured maximum, a positive limit becomes the
minimum of itself and the configured maximum (so a stricter limit is never
loosened and an in-bounds limit is untouched), but a negative limit passes
through unchanged, so the optimizer-set limit is not always positive. -/
theorem c5_amended (s : QueryOptimizationSettings) (q : ParsedQuery)
    (hmax : 0 < s.maxResults) :
    (q.limit = none → (optimize s q).limit = some s.maxResults)
    ∧ (q.limit = some 0 → (optimize s q).limit = some s.maxResults)
    ∧ (∀ L : Int, q.limit = some L → 0 < L →
        (optimize s q).limit = some (min L s.maxResults))
    ∧ (∀ L : Int, q.limit = some L → L < 0 → (optimize s q).limit = some L) := by
  refine ⟨?_, ?_, ?_, ?_⟩
  · intro h
    simp [optimize, h]
  · intro h
    simp [optimize, h]
  · intro L h hL
    rcases le_or_lt L s.maxResults with hle | hgt
    · have hne : ¬(L = 0 ∨ L > s.maxResults) := by omega
      simp [optimize, h, hne, min_eq_left hle]
    · have hc : L = 0 ∨ L > s.maxResults := Or.inr hgt
      simp [optimize, h, hc, min_eq_right (le_of_lt hgt)]
  · intro L h hL
    have hne : ¬(L = 0 ∨ L > s.maxResults) := by omega
    simp [optimize, h, hne]

/-- Witness for c5_amended at the default settings and a missing limit. -/
theorem c5_amended_witness :
    (0 : Int) < DEFAULT_OPTIMIZATION_SETTINGS.maxResults
    ∧ (optimize DEFAULT_OPTIMIZATION_SETTINGS ⟨[], [], none⟩).limit
        = some DEFAULT_OPTIMIZATION_SETTINGS.maxResults :=
  ⟨by decide, (c5_amended DEFAULT_OPTIMIZATION_SETTINGS ⟨[], [], none⟩ (by decide)).1 rfl⟩

/-- Claim C6 counterexample: a query with zero filters but the explicit
limit 0 is rejected by validateQuery although the claim, which excepts only
queries lacking an explicit limit, demands it be accepted; the code tests
JavaScript falsiness of the limit, and 0 is falsy. -/
theorem c6_counterexample_zero_limit :
    (validateQuery ⟨[], [], some 0⟩).valid = false
    ∧ ((⟨[], [], some 0⟩ : ParsedQuery).limit ≠ none) := by
  decide

/-- Claim C6 as amended: validateQuery rejects exactly when the query has
zero filters and a falsy limit (absent or zero), or some filter carries a
list value longer than 100 entries; every rejection carries a reason
string, and the query itself is never modified. -/
theorem c6_amended (q : ParsedQuery) :
    ((validateQuery q).valid = false ↔
      (q.filters = [] ∧ (q.limit = none ∨ q.limit = some 0))
        ∨ ∃ f ∈ q.filters, hasLongListValue f = true)
    ∧ ((validateQuery q).valid = false → (validateQuery q).error ≠ none) := by
  have hfalsy : (jsLimitFalsy q.limit = true) ↔ (q.limit = none ∨ q.limit = some 0) := by
    cases h : q.limit with
    | none => simp [jsLimitFalsy]
    | some n => simp [jsLimitFalsy]
  have hval : (validateQuery q).valid = false ↔
      (q.filters.isEmpty && jsLimitFalsy q.limit) = true
        ∨ (q.filters.find? hasLongListValue).isSome = true := by
    unfold validateQuery
    by_cases hb : (q.filters.isEmpty && jsLimitFalsy q.limit) = true
    · simp [hb]
    · rw [if_neg hb]
      cases hf : q.filters.find? hasLongListValue with
      | none => simp [hb, hf]
      | some f => simp [hf]
  have herr : (validateQuery q).valid = false → (validateQuery q).error ≠ none := by
    intro hinv
    unfold validateQuery at hinv ⊢
    by_cases hb : (q.filters.isEmpty && jsLimitFalsy q.limit) = true
    · simp [hb]
    · rw [if_neg hb] at hinv ⊢
      cases hf : q.filters.find? hasLongListValue with
      | none => rw [hf] at hinv; simp at hinv
      | some f => simp
  refine ⟨?_, herr⟩
  rw [hval, Bool.and_eq_true, List.isEmpty_iff, hfalsy, List.find?_isSome]

/-- Witness for c6_amended at the empty query with no limit. -/
theorem c6_amended_witness :
    (validateQuery ⟨[], [], none⟩).valid = false
    ∧ (validateQuery ⟨[], [], none⟩).error ≠ none := by
  have h := c6_amended ⟨[], [], none⟩
  have hf : (validateQuery (⟨[], [], none⟩ : ParsedQuery)).valid = false :=
    h.1.mpr (Or.inl ⟨rfl, Or.inl rfl⟩)
  exact ⟨hf, h.2 hf⟩

/-- Claim C7 (code evaluated at the failing input): the single line joining
three equality clauses with inline and and or yields zero filter
conditions, not three.  The where branch of the parser consumes the line
first and feeds the entire body to parseFilter as one clause, which finds
no operator split into exactly two parts and drops the line; the inline
connective branches that would split it (and that even strip a leading
where prefix) are unreachable for where-prefixed lines. -/
theorem c7_where_line_with_connectives_dropped :
    parse "where status = TODO and priority = 1 or due = today" =
      ⟨[], [], none⟩ := by
  decide

/-- Claim C8 counterexample: the query sorting by due ascending returns the
two matching records in record-store creation order, with due dates
2026-02-10 before 2026-01-01, which is not ascending in the requested due
field. -/
theorem c8_counterexample_sort_field_ignored :
    ((parse "tasks\nwhere status = TODO\nsort by due asc").sorts
        = [⟨"due", SortDirection.ASC⟩])
    ∧ sortedByDueAsc
        (executeQuery store2 d2026 0 "" 60000 "tasks\nwhere status = TODO\nsort by due asc"
          true initES).1 = false := by
  decide

/-- Claim C8 as amended: the engine always sorts on the record-store
created column (content for a description sort) in the requested
direction; the requested field has no other influence, so the returned
records follow creation order rather than the requested field values, as
the concrete run shows. -/
theorem c8_amended :
    (∀ srt : SortCondition,
      buildSortClause srt =
        (if normalizeFieldName srt.field = "description" then "content" else "created")
          ++ " " ++ (if srt.direction = SortDirection.DESC then "DESC" else "ASC"))
    ∧ ((executeQuery store2 d2026 0 "" 60000 "tasks\nwhere status = TODO\nsort by due asc"
          true initES).1.map TaskData.task_id = ["t1", "t2"]) := by
  constructor
  · intro srt
    by_cases h : normalizeFieldName srt.field = "description" <;>
      cases hd : srt.direction <;>
        simp [buildSortClause, h, hd]
  · decide

/-- Claim C9: with caching enabled, issuing the same raw query string a
second time while the first result is still within the freshness window
returns the cached result with the state unchanged, so exactly one
record-source fetch happens across the two calls. -/
theorem c9_cache_hit (store : Store) (today : CivilDate) (now1 now2 : Int) (nowIso : String)
    (cT : Int) (q : String) (st : EngineState)
    (hmiss : st.cache q = none) (hfresh : now2 - now1 < cT) :
    ((executeQuery store today now2 nowIso cT q true
        (executeQuery store today now1 nowIso cT q true st).2).1
      = (executeQuery store today now1 nowIso cT q true st).1)
    ∧ ((executeQuery store today now2 nowIso cT q true
        (executeQuery store today now1 nowIso cT q true st).2).2
      = (executeQuery store today now1 nowIso cT q true st).2)
    ∧ (executeQuery store today now1 nowIso cT q true st).2.fetches = st.fetches + 1 := by
  simp [executeQuery, hmiss, hfresh]

/-- Witness for c9_cache_hit on the empty store at times 0 and 1000. -/
theorem c9_cache_hit_witness :
    (initES.cache "tasks" = none ∧ (1000 : Int) - 0 < 60000)
    ∧ (executeQuery [] d2026 1000 "" 60000 "tasks" true
        (executeQuery [] d2026 0 "" 60000 "tasks" true initES).2).1
      = (executeQuery [] d2026 0 "" 60000 "tasks" true initES).1 :=
  ⟨⟨rfl, by decide⟩, (c9_cache_hit [] d2026 0 1000 "" 60000 "tasks" initES rfl (by decide)).1⟩

/-- Claim C10: a call with the per-call no-cache override still writes the
freshly computed result under the raw query string with the call
timestamp, counts one record-source fetch, and leaves every other cache
key unchanged: the override bypasses only the cache read. -/
theorem c10_nocache_still_writes (store : Store) (today : CivilDate) (now : Int)
    (nowIso : String) (cT : Int) (q : String) (st : EngineState) :
    ((executeQuery store today now nowIso cT q false st).1
        = freshExecute store today nowIso q)
    ∧ ((executeQuery store today now nowIso cT q false st).2.cache q
        = some (freshExecute store today nowIso q, now))
    ∧ (∀ k : String, k ≠ q →
        (executeQuery store today now nowIso cT q false st).2.cache k = st.cache k)
    ∧ ((executeQuery store today now nowIso cT q false st).2.fetches = st.fetches + 1) := by
  refine ⟨?_, ?_, ?_, ?_⟩
  · simp [executeQuery]
  · simp [executeQuery]
  · intro k hk
    simp [executeQuery, hk]
  · simp [executeQuery]

/-- Witness for c10_nocache_still_writes on a state holding an unrelated
cache entry that the write leaves untouched. -/
theorem c10_nocache_still_writes_witness :
    ("other" ≠ "tasks")
    ∧ (executeQuery [] d2026 7 "" 60000 "tasks" false stWitness).2.cache "other"
        = some ([], 5) := by
  refine ⟨by decide, ?_⟩
  have h := (c10_nocache_still_writes [] d2026 7 "" 60000 "tasks" stWitness).2.2.1 "other"
    (by decide)
  rw [h]
  simp [stWitness]

end SiyuanTasks
